import Mathlib

/-!
Shallow embedding of `citation_conversion_utilities.py` (a BibTeX → CFF
converter).  Strings are modelled as `List Char`; Python string methods
(`strip`, `split`, `zfill`, `int(...)`) are translated character by
character from CPython's documented behaviour restricted to ASCII input.
The `Citation.info_dict` dictionary is modelled as an insertion-ordered
association list from key strings to heterogeneous values.  Exceptions
(`assert`, `KeyError`, `ValueError`) are modelled as `Option`/failure
results, and `datetime.now()` is passed in explicitly as a `PyDate`.
-/

namespace BibToCff

/-- ASCII whitespace as recognised by Python's `str.strip()` / `str.split()`. -/
def isPySpace (c : Char) : Bool :=
  c = ' ' || c = '\t' || c = '\n' || c = '\r' || c = '\x0b' || c = '\x0c'

/-- Python `str.strip()`: drop leading and trailing whitespace. -/
def pyStrip (l : List Char) : List Char :=
  ((l.dropWhile isPySpace).reverse.dropWhile isPySpace).reverse

/-- Helper for Python `str.split(sep)` with a one-character separator:
`cur` accumulates the current field in reverse. -/
def splitSepAux (sep : Char) : List Char → List Char → List (List Char)
  | [], cur => [cur.reverse]
  | c :: rest, cur =>
    if c = sep then cur.reverse :: splitSepAux sep rest []
    else splitSepAux sep rest (c :: cur)

/-- Python `str.split(sep)` for a one-character separator (empty fields kept). -/
def splitSep (sep : Char) (l : List Char) : List (List Char) :=
  splitSepAux sep l []

/-- Helper for Python `str.split()` (no argument): split on whitespace runs,
dropping empty fields; `cur` accumulates the current field in reverse. -/
def splitWsAux : List Char → List Char → List (List Char)
  | [], cur => if cur = [] then [] else [cur.reverse]
  | c :: rest, cur =>
    if isPySpace c then
      if cur = [] then splitWsAux rest [] else cur.reverse :: splitWsAux rest []
    else splitWsAux rest (c :: cur)

/-- Python `str.split()` with no argument. -/
def splitWs (l : List Char) : List (List Char) :=
  splitWsAux l []

/-- Does `sep` occur as a prefix of `l`? -/
def beginsWith : List Char → List Char → Bool
  | [], _ => true
  | _ :: _, [] => false
  | a :: as2, b :: bs => a = b && beginsWith as2 bs

/-- Fuel-driven helper for Python `str.split(sep)` with a multi-character
separator (used for the author separator `" and "`); leftmost,
non-overlapping matches, empty fields kept. -/
def splitListAux (sep : List Char) : Nat → List Char → List Char → List (List Char)
  | 0, l, cur => [cur.reverse ++ l]
  | fuel + 1, l, cur =>
    if beginsWith sep l then
      cur.reverse :: splitListAux sep fuel (l.drop sep.length) []
    else
      match l with
      | [] => [cur.reverse]
      | c :: rest => splitListAux sep fuel rest (c :: cur)

/-- Python `str.split(sep)` for a non-empty multi-character separator. -/
def splitList (sep l : List Char) : List (List Char) :=
  splitListAux sep (l.length + 1) l []

/-- Digit tail of Python `int()` parsing: base-10 digits with single
underscores permitted between digits (ASCII digits only). -/
def digitsCore : List Char → Nat → Option Nat
  | [], acc => some acc
  | '_' :: c :: rest, acc =>
    if c.isDigit then digitsCore rest (acc * 10 + (c.toNat - 48)) else none
  | ['_'], _ => none
  | c :: rest, acc =>
    if c.isDigit then digitsCore rest (acc * 10 + (c.toNat - 48)) else none

/-- Non-empty digit part of Python `int()` parsing. -/
def digitPart : List Char → Option Nat
  | [] => none
  | c :: rest => if c.isDigit then digitsCore rest (c.toNat - 48) else none

/-- Sign handling of Python `int()` parsing (after whitespace stripping). -/
def pyIntCore : List Char → Option Int
  | '+' :: rest => (digitPart rest).map Int.ofNat
  | '-' :: rest => (digitPart rest).map (fun n => -(n : Int))
  | l => (digitPart l).map Int.ofNat

/-- Python `int(s)` on an ASCII string: `some` value, or `none` for the
`ValueError` raised on malformed input. -/
def pyInt (l : List Char) : Option Int :=
  pyIntCore (pyStrip l)

/-- Decimal digits of a natural number. -/
def natRepr (n : Nat) : List Char :=
  Nat.toDigits 10 n

/-- Python `str()` of an integer. -/
def intRepr : Int → List Char
  | Int.ofNat n => natRepr n
  | Int.negSucc n => '-' :: natRepr (n + 1)

/-- Python `str.zfill(width)`: left-pad with `'0'` to `width`, keeping a
leading sign in place. -/
def pyZfill (width : Nat) (l : List Char) : List Char :=
  if width ≤ l.length then l
  else
    match l with
    | [] => List.replicate width '0'
    | c :: rest =>
      if c = '+' || c = '-' then
        c :: (List.replicate (width - l.length) '0' ++ rest)
      else
        List.replicate (width - l.length) '0' ++ l

/-- One parsed author, as stored in `info_dict['author_dict']` (the source
never sets `orcid` while parsing, but the renderer reads it if present). -/
structure Author where
  full_name : List Char
  first_name : List Char
  last_name : List Char
  orcid : Option (List Char) := none
  deriving DecidableEq, Repr

/-- A value stored in `Citation.info_dict`: the source stores strings,
ints (page numbers, author count), `None` (for a missing author field) and
the nested author dictionary. -/
inductive Val where
  | vstr : List Char → Val
  | vint : Int → Val
  | vnone : Val
  | vauthors : List Author → Val
  deriving DecidableEq, Repr

/-- The `info_dict` attribute: an insertion-ordered string-keyed dictionary. -/
def InfoDict := List (List Char × Val)

instance : DecidableEq InfoDict := by
  unfold InfoDict
  infer_instance

/-- Python `d[k]` lookup (first matching key). -/
def getKey : InfoDict → List Char → Option Val
  | [], _ => none
  | (k2, v) :: rest, k => if k2 = k then some v else getKey rest k

/-- Python `d[k] = v`: overwrite in place if the key exists, else append. -/
def setKey : InfoDict → List Char → Val → InfoDict
  | [], k, v => [(k, v)]
  | (k2, v2) :: rest, k, v =>
    if k2 = k then (k, v) :: rest else (k2, v2) :: setKey rest k v

/-- Python `k in d.keys()`. -/
def hasKey (d : InfoDict) (k : List Char) : Bool :=
  (getKey d k).isSome

/-- Python dict lookup on a string-to-string table. -/
def lookupStr : List (List Char × List Char) → List Char → Option (List Char)
  | [], _ => none
  | (k, v) :: rest, t => if k = t then some v else lookupStr rest t

/-- Python `str()` of an `info_dict` value, as interpolated by the f-strings
in `export_as_cff` (only strings and ints are ever interpolated there). -/
def pyStr : Val → List Char
  | Val.vstr s => s
  | Val.vint n => intRepr n
  | Val.vnone => "None".data
  | Val.vauthors _ => []

/-- One decoded entry as handed over by `bibtexparser`: the entry type tag
plus the decoded field mapping (`bib_info.fields_dict`). -/
structure Entry where
  entry_type : List Char
  fields : List (List Char × List Char)
  deriving DecidableEq

/-- Source lines 51-60: parse one author token.  With a comma, the token
must split into exactly two comma-separated parts (`assert`), giving
`last_name = split(',')[0].strip()` and `first_name = split(',')[1].strip()`;
without a comma it must split into exactly two whitespace-separated pieces
(`assert`), giving `first_name = split()[0].strip()` and
`last_name = split()[1].strip()`.  A failed `assert` is `none`. -/
def parseAuthorToken (t : List Char) : Option Author :=
  if ',' ∈ t then
    match splitSep ',' t with
    | [p, q] => some ⟨pyStrip t, pyStrip q, pyStrip p, none⟩
    | _ => none
  else
    match splitWs t with
    | [p, q] => some ⟨pyStrip t, pyStrip p, pyStrip q, none⟩
    | _ => none

/-- Source lines 49-60: the author loop; the first failing token aborts the
whole parse. -/
def parseAuthorsLoop : List (List Char) → Option (List Author)
  | [] => some []
  | t :: ts =>
    match parseAuthorToken t with
    | none => none
    | some a =>
      match parseAuthorsLoop ts with
      | none => none
      | some rest => some (a :: rest)

/-- Result of parsing the `pages` field (source lines 33-42). -/
inductive PagesResult where
  | range : Int → Int → PagesResult
  | single : List Char → PagesResult
  deriving DecidableEq, Repr

/-- Source lines 35-42: split the pages string on the en-dash; two parts
must both be `int(...)`-parseable, one part is kept as the raw string, any
other count hits `assert False`. -/
def parsePages (p : List Char) : Option PagesResult :=
  match splitSep '–' p with
  | [a, b] =>
    match pyInt a, pyInt b with
    | some x, some y => some (PagesResult.range x y)
    | _, _ => none
  | [a] => some (PagesResult.single a)
  | _ => none

/-- Source lines 33-42 as an `info_dict` update: when a `pages` key is
present, store `start`/`end` (ints) for a two-part split or `start` (raw
string) for a one-part split. -/
def parsePagesStep (d : InfoDict) : Option InfoDict :=
  match getKey d "pages".data with
  | some (Val.vstr p) =>
    (parsePages p).map fun r =>
      match r with
      | PagesResult.range a b =>
        setKey (setKey d "start".data (Val.vint a)) "end".data (Val.vint b)
      | PagesResult.single s => setKey d "start".data (Val.vstr s)
  | some _ => none
  | none => some d

/-- Source lines 28-29: the fixed allow-list of copied fields. -/
def allowedFieldKeys : List (List Char) :=
  ["title", "booktitle", "pages", "year", "month", "day", "journal",
   "volume", "series", "issue", "editor", "publisher", "url", "doi",
   "abstract"].map String.data

/-- Source lines 28-31: copy each allow-listed field present in the entry
into `info_dict`, in allow-list order. -/
def copyFields (e : Entry) : List (List Char) → InfoDict → InfoDict
  | [], d => d
  | k :: ks, d =>
    copyFields e ks
      (match lookupStr e.fields k with
       | some v => setKey d k (Val.vstr v)
       | none => d)

/-- Source lines 26-65 (`parse_bibtex` after the external tokenizer):
record `ENTRYTYPE`, copy the allow-listed fields, parse `pages`, then split
the `author` field on `" and "` and parse each token; a missing author
field is recorded as `author = None`. -/
def parseBibtex (e : Entry) : Option InfoDict :=
  match parsePagesStep
      (copyFields e allowedFieldKeys
        (setKey [] "ENTRYTYPE".data (Val.vstr e.entry_type))) with
  | none => none
  | some d2 =>
    match lookupStr e.fields "author".data with
    | some s =>
      match parseAuthorsLoop (splitList " and ".data s) with
      | none => none
      | some ad =>
        some (setKey
          (setKey d2 "n_authors".data
            (Val.vint (splitList " and ".data s).length))
          "author_dict".data (Val.vauthors ad))
    | none => some (setKey d2 "author".data Val.vnone)

/-- The value of `datetime.now()`, passed in explicitly. -/
structure PyDate where
  year : Int
  month : Int
  day : Int
  deriving DecidableEq, Repr

/-- Source lines 77-81 (first branch of the loop body): if `date-released`
is already present, leave the dict unchanged; else if `date` is present,
copy it to `date-released`. -/
def adoptDate (d : InfoDict) : InfoDict :=
  if hasKey d "date-released".data then d
  else
    match getKey d "date".data with
    | some v => setKey d "date-released".data v
    | none => d

/-- Source lines 84-107: the constructed date string
`f-string {year}-{str(month).zfill(2)}-{str(day).zfill(2)}`.  In the
source the year-absent branch also assigns `month = dt.month` and
`day = dt.day`, but those assignments are dead: the unconditional
month/day checks that follow immediately overwrite both (`month = 1`,
`day = 1` when the fields are absent). -/
def constructedDate (now : PyDate) (d : InfoDict) : List Char :=
  let year := match getKey d "year".data with
    | some v => v
    | none => Val.vint now.year
  let month := match getKey d "month".data with
    | some v => v
    | none => Val.vint 1
  let day := match getKey d "day".data with
    | some v => v
    | none => Val.vint 1
  pyStr year ++ '-' :: pyZfill 2 (pyStr month) ++ '-' :: pyZfill 2 (pyStr day)

/-- Source lines 74-107: the date block of `prep_info_for_export`.  The
`while find_date` loop executes its body exactly once (both branches of
the final `day` check clear `find_date`), and `construct_date = True` is
executed unconditionally inside the body, so the constructed date string
always overwrites `date-released` afterwards. -/
def prepDate (now : PyDate) (d : InfoDict) : InfoDict :=
  setKey (adoptDate d) "date-released".data
    (Val.vstr (constructedDate now (adoptDate d)))

/-- Source lines 111-114: the fixed BibTeX-type → CFF-type table. -/
def typeMappingBibToCff : List (List Char × List Char) :=
  [("article".data, "article".data), ("book".data, "book".data),
   ("booklet".data, "pamphlet".data),
   ("inproceedings".data, "conference-paper".data),
   ("proceedings".data, "proceedings".data), ("misc".data, "generic".data),
   ("manual".data, "manual".data), ("software".data, "software".data),
   ("techreport".data, "report".data),
   ("unpublished".data, "unpublished".data)]

/-- Source lines 110-115: when `ENTRYTYPE` is present, look its value up in
the fixed table and store the result as `cff_type`; a tag that is not a key
raises `KeyError` (`none`), as does a non-string tag. -/
def prepType (d : InfoDict) : Option InfoDict :=
  if hasKey d "ENTRYTYPE".data then
    match getKey d "ENTRYTYPE".data with
    | some (Val.vstr t) =>
      match lookupStr typeMappingBibToCff t with
      | some c => some (setKey d "cff_type".data (Val.vstr c))
      | none => none
    | _ => none
  else some d

/-- Source lines 118-120: back-fill `journal` from `series` when absent. -/
def prepJournal (d : InfoDict) : InfoDict :=
  if hasKey d "journal".data then d
  else
    match getKey d "series".data with
    | some v => setKey d "journal".data v
    | none => d

/-- Source lines 123-126: copy `booktitle` to `conference` when the CFF
type is `conference-paper` and `conference` is not already set. -/
def prepConference (d : InfoDict) : InfoDict :=
  if hasKey d "cff_type".data ∧
      getKey d "cff_type".data = some (Val.vstr "conference-paper".data) then
    match getKey d "booktitle".data, hasKey d "conference".data with
    | some bv, false => setKey d "conference".data bv
    | _, _ => d
  else d

/-- Source lines 67-126: `prep_info_for_export` (date, type, journal,
conference, in that order); a `KeyError` from the type table aborts. -/
def prepInfoForExport (now : PyDate) (d : InfoDict) : Option InfoDict :=
  (prepType (prepDate now d)).map fun d2 => prepConference (prepJournal d2)

/-- One output line of the form `pre ++ key ++ ": \"value\"\n"`. -/
def kvLine (pre key v : List Char) : List Char :=
  pre ++ key ++ ": \"".data ++ v ++ "\"\n".data

/-- Source lines 139-145: the lines written for one author at the given
indentation. -/
def authorEntryLines (indentId : List Char) (a : Author) : List (List Char) :=
  [indentId ++ "  - family-names: \"".data ++ a.last_name ++ "\"\n".data,
   indentId ++ "    given-names: \"".data ++ a.first_name ++ "\"\n".data] ++
  (match a.orcid with
   | some o => [indentId ++ "    orcid: \"".data ++ o ++ "\"\n".data]
   | none => [])

/-- Source lines 128-145 (`add_author_names_to_cff`): all asserts
(`author_dict` present, `n_authors` consistent, at least one author)
precede the first write, so a failure emits nothing (`none`). -/
def addAuthorNamesToCff (d : InfoDict) (indentN : Nat) : Option (List (List Char)) :=
  match getKey d "author_dict".data with
  | some (Val.vauthors ad) =>
    if getKey d "n_authors".data = some (Val.vint ad.length) ∧ 0 < ad.length then
      some ((List.replicate indentN ' ' ++ "authors:\n".data) ::
        ad.flatMap (authorEntryLines (List.replicate indentN ' ')))
    else none
  | _ => none

/-- Source lines 154-158: the doi line, preferring `doi` over `repo_doi`. -/
def doiLines (d : InfoDict) : List (List Char) :=
  match getKey d "doi".data with
  | some v => [kvLine [] "doi".data (pyStr v)]
  | none =>
    match getKey d "repo_doi".data with
    | some v => [kvLine [] "doi".data (pyStr v)]
    | none => []

/-- Source lines 161-162: the optional `version` line. -/
def repoVersionLines (d : InfoDict) : List (List Char) :=
  match getKey d "repo_version".data with
  | some v => [kvLine [] "version".data (pyStr v)]
  | none => []

/-- Source lines 167-170: the `type` line, defaulting to `generic` only
when `cff_type` was never computed. -/
def typeLine (d : InfoDict) : List Char :=
  match getKey d "cff_type".data with
  | some v => kvLine "  ".data "type".data (pyStr v)
  | none => kvLine "  ".data "type".data "generic".data

/-- Source lines 171-173: the optional `publisher` block. -/
def publisherLines (d : InfoDict) : List (List Char) :=
  match getKey d "publisher".data with
  | some v => ["  publisher:\n".data, kvLine "    ".data "name".data (pyStr v)]
  | none => []

/-- Source lines 174-176: the optional `conference` block. -/
def conferenceLines (d : InfoDict) : List (List Char) :=
  match getKey d "conference".data with
  | some v => ["  conference:\n".data, kvLine "    ".data "name".data (pyStr v)]
  | none => []

/-- Source lines 177-178: the fixed key order of the preferred-citation
field loop. -/
def exportFixedKeys : List (List Char) :=
  ["doi", "url", "date-released", "issue", "volume", "journal", "title",
   "booktitle", "editor", "series", "publisher", "start", "end"].map
    String.data

/-- Source lines 177-180: one line per fixed key that is present. -/
def fixedKeyLines (d : InfoDict) : List (List Char) :=
  exportFixedKeys.flatMap fun k =>
    match getKey d k with
    | some v => [kvLine "  ".data k (pyStr v)]
    | none => []

/-- Source lines 147-182 (`export_as_cff`): each `f.write` appends one line
to stdout.  The result is the list of lines actually written, paired with
`true` on success; an exception (`KeyError` on a missing key, a failed
assert in the author renderer, or a `prep_info_for_export` failure) stops
the function with the lines already written. -/
def exportAsCff (now : PyDate) (d0 : InfoDict) (cffVersion : List Char) :
    List (List Char) × Bool :=
  match prepInfoForExport now d0 with
  | none => ([], false)
  | some d =>
    match getKey d "date-released".data with
    | none => ([], false)
    | some dv =>
      let out1 := kvLine [] "date-released".data (pyStr dv) :: doiLines d
      match getKey d "title".data with
      | none => (out1, false)
      | some tv =>
        let out2 := out1 ++
          [kvLine [] "title".data (pyStr tv),
           kvLine [] "cff-version".data cffVersion] ++ repoVersionLines d
        match addAuthorNamesToCff d 0 with
        | none => (out2, false)
        | some al0 =>
          let out3 := out2 ++ al0 ++ "preferred-citation:\n".data ::
            typeLine d ::
            (publisherLines d ++ conferenceLines d ++ fixedKeyLines d)
          match addAuthorNamesToCff d 2 with
          | none => (out3, false)
          | some al2 => (out3 ++ al2, true)

theorem getKey_setKey_self (d : InfoDict) (k : List Char) (v : Val) :
    getKey (setKey d k v) k = some v := by
  induction d with
  | nil => simp [setKey, getKey]
  | cons p rest ih =>
    obtain ⟨k2, v2⟩ := p
    by_cases h : k2 = k
    · simp [setKey, getKey, h]
    · simp [setKey, getKey, h, ih]

theorem getKey_setKey_ne (d : InfoDict) (k k2 : List Char) (v : Val)
    (h : k2 ≠ k) : getKey (setKey d k v) k2 = getKey d k2 := by
  have h2 : ¬ k = k2 := fun hh => h hh.symm
  induction d with
  | nil => simp [setKey, getKey, h2]
  | cons p rest ih =>
    obtain ⟨k3, v3⟩ := p
    by_cases h3 : k3 = k
    · subst h3
      simp [setKey, getKey, h2]
    · simp [setKey, getKey, h3, ih]

theorem setKey_eq_self (d : InfoDict) (k : List Char) (v : Val)
    (h : getKey d k = some v) : setKey d k v = d := by
  induction d with
  | nil => simp [getKey] at h
  | cons p rest ih =>
    obtain ⟨k2, v2⟩ := p
    by_cases h2 : k2 = k
    · subst h2
      simp [getKey] at h
      simp [setKey, h]
    · simp [getKey, h2] at h
      simp [setKey, h2, ih h]

theorem splitSepAux_no_sep (sep : Char) (l : List Char) (h : sep ∉ l) :
    ∀ cur, splitSepAux sep l cur = [cur.reverse ++ l] := by
  induction l with
  | nil => intro cur; simp [splitSepAux]
  | cons c rest ih =>
    intro cur
    have hc : ¬ c = sep := fun hh => h (hh ▸ List.mem_cons_self c rest)
    have h2 : sep ∉ rest := fun hm => h (List.mem_cons_of_mem c hm)
    simp [splitSepAux, hc, ih h2]

theorem splitSepAux_sep (sep : Char) (pre : List Char) (h : sep ∉ pre) :
    ∀ post cur, splitSepAux sep (pre ++ sep :: post) cur =
      (cur.reverse ++ pre) :: splitSepAux sep post [] := by
  induction pre with
  | nil => intro post cur; simp [splitSepAux]
  | cons c rest ih =>
    intro post cur
    have hc : ¬ c = sep := fun hh => h (hh ▸ List.mem_cons_self c rest)
    have h2 : sep ∉ rest := fun hm => h (List.mem_cons_of_mem c hm)
    simp [splitSepAux, hc, ih h2]

theorem splitSepAux_length (sep : Char) (l : List Char) :
    ∀ cur, (splitSepAux sep l cur).length = l.count sep + 1 := by
  induction l with
  | nil => intro cur; simp [splitSepAux]
  | cons c rest ih =>
    intro cur
    by_cases hc : c = sep
    · subst hc
      simp [splitSepAux, ih, List.count_cons]
    · simp [splitSepAux, hc, ih, List.count_cons]

theorem splitWsAux_spaces_nil (ws : List Char)
    (h : ∀ c ∈ ws, isPySpace c = true) :
    ∀ l, splitWsAux (ws ++ l) [] = splitWsAux l [] := by
  induction ws with
  | nil => intro l; rfl
  | cons c rest ih =>
    intro l
    have hc := h c (List.mem_cons_self c rest)
    have h2 : ∀ c2 ∈ rest, isPySpace c2 = true :=
      fun c2 hm => h c2 (List.mem_cons_of_mem c hm)
    simp [splitWsAux, hc, ih h2]

theorem splitWsAux_nonspace (a : List Char)
    (h : ∀ c ∈ a, isPySpace c = false) :
    ∀ l cur, splitWsAux (a ++ l) cur = splitWsAux l (a.reverse ++ cur) := by
  induction a with
  | nil => intro l cur; rfl
  | cons c rest ih =>
    intro l cur
    have hc := h c (List.mem_cons_self c rest)
    have h2 : ∀ c2 ∈ rest, isPySpace c2 = false :=
      fun c2 hm => h c2 (List.mem_cons_of_mem c hm)
    simp [splitWsAux, hc, ih h2]

theorem splitWsAux_spaces_flush (ws cur : List Char)
    (h : ∀ c ∈ ws, isPySpace c = true) (hcur : cur ≠ []) :
    splitWsAux ws cur = [cur.reverse] := by
  cases ws with
  | nil => simp [splitWsAux, hcur]
  | cons c rest =>
    have hc := h c (List.mem_cons_self c rest)
    have h2 : ∀ c2 ∈ rest, isPySpace c2 = true :=
      fun c2 hm => h c2 (List.mem_cons_of_mem c hm)
    have hrest : splitWsAux rest [] = [] := by
      have h3 := splitWsAux_spaces_nil rest h2 []
      simpa [splitWsAux] using h3
    simp [splitWsAux, hc, hcur, hrest]

theorem splitWsAux_pieces_nonspace (l : List Char) :
    ∀ cur, (∀ c ∈ cur, isPySpace c = false) →
      ∀ p ∈ splitWsAux l cur, ∀ c ∈ p, isPySpace c = false := by
  induction l with
  | nil =>
    intro cur hcur p hp
    by_cases h : cur = []
    · simp [splitWsAux, h] at hp
    · simp [splitWsAux, h] at hp
      subst hp
      intro c hc
      exact hcur c (List.mem_reverse.mp hc)
  | cons c rest ih =>
    intro cur hcur p hp
    by_cases sp : isPySpace c
    · by_cases hc : cur = []
      · simp [splitWsAux, sp, hc] at hp
        exact ih [] (by simp) p hp
      · simp [splitWsAux, sp, hc] at hp
        rcases hp with hp | hp
        · subst hp
          intro c2 hc2
          exact hcur c2 (List.mem_reverse.mp hc2)
        · exact ih [] (by simp) p hp
    · simp [splitWsAux, sp] at hp
      refine ih (c :: cur) ?_ p hp
      intro c2 hc2
      rcases List.mem_cons.mp hc2 with hh | hh
      · subst hh
        exact Bool.eq_false_iff.mpr sp
      · exact hcur c2 hh

theorem dropWhile_eq_self_of_nonspace (l : List Char)
    (h : ∀ c ∈ l, isPySpace c = false) : l.dropWhile isPySpace = l := by
  cases l with
  | nil => rfl
  | cons c rest => simp [List.dropWhile_cons, h c (List.mem_cons_self c rest)]

theorem pyStrip_eq_self_of_nonspace (l : List Char)
    (h : ∀ c ∈ l, isPySpace c = false) : pyStrip l = l := by
  unfold pyStrip
  rw [dropWhile_eq_self_of_nonspace l h,
    dropWhile_eq_self_of_nonspace l.reverse
      (fun c hc => h c (List.mem_reverse.mp hc)),
    List.reverse_reverse]

theorem dropWhile_spaces_append (ws : List Char)
    (h : ∀ c ∈ ws, isPySpace c = true) :
    ∀ l, (ws ++ l).dropWhile isPySpace = l.dropWhile isPySpace := by
  induction ws with
  | nil => intro l; rfl
  | cons c rest ih =>
    intro l
    have hc := h c (List.mem_cons_self c rest)
    have h2 : ∀ c2 ∈ rest, isPySpace c2 = true :=
      fun c2 hm => h c2 (List.mem_cons_of_mem c hm)
    simp [List.dropWhile_cons, hc, ih h2]

theorem dropWhile_cons_of_nonspace (c : Char) (l : List Char)
    (h : isPySpace c = false) :
    (c :: l).dropWhile isPySpace = c :: l := by
  simp [List.dropWhile_cons, h]

theorem getKey_adoptDate_ne (d : InfoDict) (k : List Char)
    (h : k ≠ "date-released".data) :
    getKey (adoptDate d) k = getKey d k := by
  unfold adoptDate
  split
  · rfl
  · split
    · exact getKey_setKey_ne _ _ _ _ h
    · rfl

theorem constructedDate_congr (now : PyDate) (d1 d2 : InfoDict)
    (hy : getKey d2 "year".data = getKey d1 "year".data)
    (hm : getKey d2 "month".data = getKey d1 "month".data)
    (hd : getKey d2 "day".data = getKey d1 "day".data) :
    constructedDate now d2 = constructedDate now d1 := by
  unfold constructedDate
  rw [hy, hm, hd]

theorem constructedDate_adoptDate (now : PyDate) (d : InfoDict) :
    constructedDate now (adoptDate d) = constructedDate now d :=
  constructedDate_congr now d (adoptDate d)
    (getKey_adoptDate_ne d _ (by decide))
    (getKey_adoptDate_ne d _ (by decide))
    (getKey_adoptDate_ne d _ (by decide))

theorem getKey_prepDate_dr (now : PyDate) (d : InfoDict) :
    getKey (prepDate now d) "date-released".data =
      some (Val.vstr (constructedDate now d)) := by
  unfold prepDate
  rw [getKey_setKey_self, constructedDate_adoptDate]

theorem getKey_prepDate_ne (now : PyDate) (d : InfoDict) (k : List Char)
    (h : k ≠ "date-released".data) :
    getKey (prepDate now d) k = getKey d k := by
  unfold prepDate
  rw [getKey_setKey_ne _ _ _ _ h, getKey_adoptDate_ne d k h]

theorem getKey_prepType_ne (d f : InfoDict) (k : List Char)
    (hf : prepType d = some f) (h : k ≠ "cff_type".data) :
    getKey f k = getKey d k := by
  unfold prepType at hf
  split at hf
  · split at hf
    · split at hf
      · cases hf
        exact getKey_setKey_ne _ _ _ _ h
      · simp at hf
    · simp at hf
  · cases hf
    rfl

theorem getKey_prepJournal_ne (d : InfoDict) (k : List Char)
    (h : k ≠ "journal".data) :
    getKey (prepJournal d) k = getKey d k := by
  unfold prepJournal
  split
  · rfl
  · split
    · exact getKey_setKey_ne _ _ _ _ h
    · rfl

theorem getKey_prepConference_ne (d : InfoDict) (k : List Char)
    (h : k ≠ "conference".data) :
    getKey (prepConference d) k = getKey d k := by
  unfold prepConference
  split
  · split
    · exact getKey_setKey_ne _ _ _ _ h
    · rfl
  · rfl

theorem getKey_prep_ne (now : PyDate) (d d2 : InfoDict) (k : List Char)
    (hp : prepInfoForExport now d = some d2)
    (h1 : k ≠ "date-released".data) (h2 : k ≠ "cff_type".data)
    (h3 : k ≠ "journal".data) (h4 : k ≠ "conference".data) :
    getKey d2 k = getKey d k := by
  unfold prepInfoForExport at hp
  rcases Option.map_eq_some'.mp hp with ⟨f, hf, hd2⟩
  rw [← hd2, getKey_prepConference_ne _ _ h4, getKey_prepJournal_ne _ _ h3,
    getKey_prepType_ne _ _ _ hf h2, getKey_prepDate_ne _ _ _ h1]

theorem getKey_prep_dr (now : PyDate) (d d2 : InfoDict)
    (hp : prepInfoForExport now d = some d2) :
    getKey d2 "date-released".data =
      some (Val.vstr (constructedDate now d)) := by
  unfold prepInfoForExport at hp
  rcases Option.map_eq_some'.mp hp with ⟨f, hf, hd2⟩
  rw [← hd2, getKey_prepConference_ne _ _ (by decide),
    getKey_prepJournal_ne _ _ (by decide),
    getKey_prepType_ne _ _ _ hf (by decide), getKey_prepDate_dr]

theorem getKey_copyFields_not_mem (e : Entry) (ks : List (List Char))
    (k : List Char) (h : k ∉ ks) :
    ∀ d, getKey (copyFields e ks d) k = getKey d k := by
  induction ks with
  | nil => intro d; rfl
  | cons k2 rest ih =>
    intro d
    have hne : k ≠ k2 := fun hh => h (hh ▸ List.mem_cons_self k2 rest)
    have h2 : k ∉ rest := fun hm => h (List.mem_cons_of_mem _ hm)
    unfold copyFields
    rw [ih h2]
    cases hl : lookupStr e.fields k2 with
    | none => rfl
    | some v => exact getKey_setKey_ne _ _ _ _ hne

theorem getKey_parsePagesStep_ne (d d2 : InfoDict) (k : List Char)
    (hp : parsePagesStep d = some d2)
    (h1 : k ≠ "start".data) (h2 : k ≠ "end".data) :
    getKey d2 k = getKey d k := by
  unfold parsePagesStep at hp
  split at hp
  · rcases Option.map_eq_some'.mp hp with ⟨r, hr, hd2⟩
    cases r with
    | range a b =>
      rw [← hd2, getKey_setKey_ne _ _ _ _ h2, getKey_setKey_ne _ _ _ _ h1]
    | single s =>
      rw [← hd2, getKey_setKey_ne _ _ _ _ h1]
  · simp at hp
  · cases hp
    rfl

theorem hasKey_eq_true_of_getKey (d : InfoDict) (k : List Char) (v : Val)
    (h : getKey d k = some v) : hasKey d k = true := by
  unfold hasKey
  rw [h]
  rfl

theorem hasKey_eq_false_of_getKey (d : InfoDict) (k : List Char)
    (h : getKey d k = none) : hasKey d k = false := by
  unfold hasKey
  rw [h]
  rfl

theorem parseBibtex_no_author (e : Entry) (d : InfoDict)
    (ha : lookupStr e.fields "author".data = none)
    (hp : parseBibtex e = some d) :
    getKey d "author_dict".data = none := by
  unfold parseBibtex at hp
  split at hp
  · simp at hp
  · rw [ha] at hp
    cases hp
    rename_i d2 hpages
    rw [getKey_setKey_ne _ _ _ _ (by decide),
      getKey_parsePagesStep_ne _ _ _ hpages (by decide) (by decide),
      getKey_copyFields_not_mem e allowedFieldKeys _ (by decide),
      getKey_setKey_ne _ _ _ _ (by decide)]
    rfl

/-- Claim C9: `prep_info_for_export` is idempotent.  For every `info_dict`
on which preparation succeeds (at a fixed current date, modelling two calls
on the same day), running it again on the prepared dictionary returns the
prepared dictionary unchanged, so every derived field (`date-released`,
`cff_type`, the `journal` back-fill and the `conference` back-fill) keeps
its value from the first call. -/
theorem claimC9_prepare_idempotent (now : PyDate) (d d2 : InfoDict)
    (hp : prepInfoForExport now d = some d2) :
    prepInfoForExport now d2 = some d2 := by
  have hp2 := hp
  unfold prepInfoForExport at hp2
  rcases Option.map_eq_some'.mp hp2 with ⟨f, hf, hd2⟩
  have hdr : getKey d2 "date-released".data =
      some (Val.vstr (constructedDate now d)) := getKey_prep_dr now d d2 hp
  have hy : getKey d2 "year".data = getKey d "year".data :=
    getKey_prep_ne now d d2 _ hp (by decide) (by decide) (by decide)
      (by decide)
  have hmo : getKey d2 "month".data = getKey d "month".data :=
    getKey_prep_ne now d d2 _ hp (by decide) (by decide) (by decide)
      (by decide)
  have hdy : getKey d2 "day".data = getKey d "day".data :=
    getKey_prep_ne now d d2 _ hp (by decide) (by decide) (by decide)
      (by decide)
  have hcd : constructedDate now d2 = constructedDate now d :=
    constructedDate_congr now d d2 hy hmo hdy
  have hPD : prepDate now d2 = d2 := by
    have hAdopt : adoptDate d2 = d2 := by
      unfold adoptDate
      rw [hasKey_eq_true_of_getKey _ _ _ hdr]
      simp
    unfold prepDate
    rw [hAdopt, hcd, setKey_eq_self _ _ _ hdr]
  have hET2 : getKey d2 "ENTRYTYPE".data = getKey d "ENTRYTYPE".data :=
    getKey_prep_ne now d d2 _ hp (by decide) (by decide) (by decide)
      (by decide)
  have hETe : getKey (prepDate now d) "ENTRYTYPE".data =
      getKey d "ENTRYTYPE".data := getKey_prepDate_ne now d _ (by decide)
  have hPT : prepType d2 = some d2 := by
    unfold prepType at hf ⊢
    cases hET : getKey d "ENTRYTYPE".data with
    | none =>
      rw [hasKey_eq_false_of_getKey d2 _ (hET2.trans hET)]
      simp
    | some v =>
      rw [hasKey_eq_true_of_getKey _ _ _ (hETe.trans hET), hETe, hET] at hf
      rw [hasKey_eq_true_of_getKey _ _ _ (hET2.trans hET), hET2, hET]
      simp only [if_true] at hf ⊢
      cases v with
      | vstr t =>
        have hf2 : (match lookupStr typeMappingBibToCff t with
            | some c =>
              some (setKey (prepDate now d) "cff_type".data (Val.vstr c))
            | none => none) = some f := hf
        show (match lookupStr typeMappingBibToCff t with
            | some c => some (setKey d2 "cff_type".data (Val.vstr c))
            | none => none) = some d2
        cases hlook : lookupStr typeMappingBibToCff t with
        | none =>
          rw [hlook] at hf2
          simp at hf2
        | some c =>
          rw [hlook] at hf2
          have hfv := Option.some.inj hf2
          subst hfv
          have hct2 : getKey d2 "cff_type".data = some (Val.vstr c) := by
            rw [← hd2, getKey_prepConference_ne _ _ (by decide),
              getKey_prepJournal_ne _ _ (by decide), getKey_setKey_self]
          show some (setKey d2 "cff_type".data (Val.vstr c)) = some d2
          rw [setKey_eq_self _ _ _ hct2]
      | vint n =>
        have hf2 : (none : Option InfoDict) = some f := hf
        exact Option.noConfusion hf2
      | vnone =>
        have hf2 : (none : Option InfoDict) = some f := hf
        exact Option.noConfusion hf2
      | vauthors a =>
        have hf2 : (none : Option InfoDict) = some f := hf
        exact Option.noConfusion hf2
  have hJ : prepJournal d2 = d2 := by
    unfold prepJournal
    cases hj2 : getKey d2 "journal".data with
    | some v =>
      rw [hasKey_eq_true_of_getKey _ _ _ hj2]
      simp
    | none =>
      rw [hasKey_eq_false_of_getKey _ _ hj2]
      have hgj : getKey (prepJournal f) "journal".data = none := by
        rw [← hd2, getKey_prepConference_ne _ _ (by decide)] at hj2
        exact hj2
      have hfs : getKey f "series".data = none := by
        unfold prepJournal at hgj
        by_cases hkf : hasKey f "journal".data = true
        · rw [if_pos hkf] at hgj
          rw [hasKey_eq_false_of_getKey _ _ hgj] at hkf
          simp at hkf
        · rw [if_neg hkf] at hgj
          cases hfs2 : getKey f "series".data with
          | none => rfl
          | some v =>
            rw [hfs2, getKey_setKey_self] at hgj
            simp at hgj
      have hs2 : getKey d2 "series".data = none := by
        rw [← hd2, getKey_prepConference_ne _ _ (by decide),
          getKey_prepJournal_ne _ _ (by decide), hfs]
      rw [hs2]
      simp
  have hC : prepConference d2 = d2 := by
    by_cases hct : hasKey d2 "cff_type".data = true ∧
        getKey d2 "cff_type".data =
          some (Val.vstr "conference-paper".data)
    · have hctg : getKey (prepJournal f) "cff_type".data =
          some (Val.vstr "conference-paper".data) := by
        have h5 := hct.2
        rw [← hd2, getKey_prepConference_ne _ _ (by decide)] at h5
        exact h5
      have hcondg : hasKey (prepJournal f) "cff_type".data = true ∧
          getKey (prepJournal f) "cff_type".data =
            some (Val.vstr "conference-paper".data) :=
        ⟨hasKey_eq_true_of_getKey _ _ _ hctg, hctg⟩
      have hd2c : prepConference (prepJournal f) = d2 := hd2
      unfold prepConference at hd2c
      rw [if_pos hcondg] at hd2c
      unfold prepConference
      rw [if_pos hct]
      cases hbk : getKey (prepJournal f) "booktitle".data with
      | none =>
        rw [hbk] at hd2c
        have hbk2 : getKey d2 "booktitle".data = none := by
          rw [← hd2c]
          exact hbk
        rw [hbk2]
      | some bv =>
        rw [hbk] at hd2c
        cases hcf : hasKey (prepJournal f) "conference".data with
        | true =>
          rw [hcf] at hd2c
          have hbk2 : getKey d2 "booktitle".data = some bv := by
            rw [← hd2c]
            exact hbk
          have hcf2 : hasKey d2 "conference".data = true := by
            rw [← hd2c]
            exact hcf
          rw [hbk2, hcf2]
        | false =>
          rw [hcf] at hd2c
          have hcf2 : hasKey d2 "conference".data = true := by
            rw [← hd2c]
            exact hasKey_eq_true_of_getKey _ _ _ (getKey_setKey_self _ _ _)
          rw [hcf2]
          cases getKey d2 "booktitle".data <;> rfl
    · unfold prepConference
      rw [if_neg hct]
  unfold prepInfoForExport
  rw [hPD, hPT, Option.map_some', hJ, hC]

/-- Witness for C9 at a concrete `inproceedings` dictionary: preparing a
second time returns the first result unchanged. -/
theorem claimC9_witness :
    prepInfoForExport ⟨2026, 10, 12⟩
        [("ENTRYTYPE".data, Val.vstr "inproceedings".data),
         ("year".data, Val.vstr "2021".data),
         ("booktitle".data, Val.vstr "Proc. X".data),
         ("date-released".data, Val.vstr "2021-01-01".data),
         ("cff_type".data, Val.vstr "conference-paper".data),
         ("conference".data, Val.vstr "Proc. X".data)] =
      some [("ENTRYTYPE".data, Val.vstr "inproceedings".data),
         ("year".data, Val.vstr "2021".data),
         ("booktitle".data, Val.vstr "Proc. X".data),
         ("date-released".data, Val.vstr "2021-01-01".data),
         ("cff_type".data, Val.vstr "conference-paper".data),
         ("conference".data, Val.vstr "Proc. X".data)] :=
  claimC9_prepare_idempotent ⟨2026, 10, 12⟩
    [("ENTRYTYPE".data, Val.vstr "inproceedings".data),
     ("year".data, Val.vstr "2021".data),
     ("booktitle".data, Val.vstr "Proc. X".data)] _ (by decide)

/-- Claim C1 is violated by the source: the loop body of
`prep_info_for_export` executes `construct_date = True` unconditionally, so
after adopting a `date` field verbatim, the constructed year/month/day
fallback string still overwrites `date-released`.  At `now = 2026-10-12`,
a dictionary with only `date = "2019-05-03"` ends with
`date-released = "2026-01-01"` instead of the verbatim date. -/
theorem claimC1_date_not_verbatim :
    getKey
        (prepDate ⟨2026, 10, 12⟩
          [("date".data, Val.vstr "2019-05-03".data)])
        "date-released".data = some (Val.vstr "2026-01-01".data) ∧
    prepInfoForExport ⟨2026, 10, 12⟩
        [("date".data, Val.vstr "2019-05-03".data)] =
      some [("date".data, Val.vstr "2019-05-03".data),
            ("date-released".data, Val.vstr "2026-01-01".data)] ∧
    "2026-01-01".data ≠ "2019-05-03".data := by
  decide

/-- Claim C2 is violated by the source: when no date fields are present at
all, the `dt.month`/`dt.day` assignments of the year-absent branch are dead
(the unconditional month/day checks overwrite them with `1`), so the result
is `{current year}-01-01`, not today's full date.  The year-only case does
produce `"2020-01-01"` as claimed. -/
theorem claimC2_no_year_behavior :
    prepInfoForExport ⟨2026, 10, 12⟩ [] =
      some [("date-released".data, Val.vstr "2026-01-01".data)] ∧
    prepInfoForExport ⟨2026, 10, 12⟩
        [("year".data, Val.vstr "2020".data)] =
      some [("year".data, Val.vstr "2020".data),
            ("date-released".data, Val.vstr "2020-01-01".data)] ∧
    "2026-01-01".data ≠ "2026-10-12".data := by
  decide

theorem lookupStr_eq_none (tbl : List (List Char × List Char))
    (t : List Char) (h : ∀ p ∈ tbl, p.1 ≠ t) : lookupStr tbl t = none := by
  induction tbl with
  | nil => rfl
  | cons p rest ih =>
    obtain ⟨k, v⟩ := p
    have hk : ¬ k = t := h (k, v) (List.mem_cons_self _ _)
    simp only [lookupStr, if_neg hk]
    exact ih fun q hq => h q (List.mem_cons_of_mem _ hq)

/-- Claim C4: the entry-type mapping consults exactly the fixed ten-entry
table, and a tag that is not a key of the table makes
`prep_info_for_export` fail (the `KeyError` the spec surfaces as
`UnknownEntryTypeError`) instead of silently mapping to `"generic"`. -/
theorem claimC4_type_mapping :
    (lookupStr typeMappingBibToCff "article".data = some "article".data ∧
     lookupStr typeMappingBibToCff "book".data = some "book".data ∧
     lookupStr typeMappingBibToCff "booklet".data = some "pamphlet".data ∧
     lookupStr typeMappingBibToCff "inproceedings".data =
       some "conference-paper".data ∧
     lookupStr typeMappingBibToCff "proceedings".data =
       some "proceedings".data ∧
     lookupStr typeMappingBibToCff "misc".data = some "generic".data ∧
     lookupStr typeMappingBibToCff "manual".data = some "manual".data ∧
     lookupStr typeMappingBibToCff "software".data = some "software".data ∧
     lookupStr typeMappingBibToCff "techreport".data = some "report".data ∧
     lookupStr typeMappingBibToCff "unpublished".data =
       some "unpublished".data ∧
     typeMappingBibToCff.length = 10) ∧
    (∀ t : List Char, ∀ now : PyDate, ∀ d : InfoDict,
      (∀ p ∈ typeMappingBibToCff, p.1 ≠ t) →
      getKey d "ENTRYTYPE".data = some (Val.vstr t) →
      prepInfoForExport now d = none) := by
  constructor
  · decide
  · intro t now d hkeys hET
    have hlook : lookupStr typeMappingBibToCff t = none :=
      lookupStr_eq_none _ _ hkeys
    have hETd : getKey (prepDate now d) "ENTRYTYPE".data =
        some (Val.vstr t) := by
      rw [getKey_prepDate_ne now d _ (by decide), hET]
    have hPT : prepType (prepDate now d) = none := by
      unfold prepType
      rw [hasKey_eq_true_of_getKey _ _ _ hETd, hETd]
      simp only [if_true]
      show (match lookupStr typeMappingBibToCff t with
          | some c =>
            some (setKey (prepDate now d) "cff_type".data (Val.vstr c))
          | none => none) = none
      rw [hlook]
    unfold prepInfoForExport
    rw [hPT]
    rfl

/-- Witness for C4: the unknown tag `"weird"` makes preparation fail. -/
theorem claimC4_witness :
    prepInfoForExport ⟨2026, 1, 1⟩
      [("ENTRYTYPE".data, Val.vstr "weird".data)] = none :=
  claimC4_type_mapping.2 "weird".data ⟨2026, 1, 1⟩
    [("ENTRYTYPE".data, Val.vstr "weird".data)] (by decide) (by decide)

/-- Claim C7: a pages string splitting on the en-dash into two
integer-parseable parts yields the two-endpoint integer range, and a string
splitting into a single part is kept as the raw start string. -/
theorem claimC7_pages_success : ∀ p : List Char,
    (∀ a b : List Char, ∀ x y : Int, splitSep '–' p = [a, b] →
      pyInt a = some x → pyInt b = some y →
      parsePages p = some (PagesResult.range x y)) ∧
    (∀ a : List Char, splitSep '–' p = [a] →
      parsePages p = some (PagesResult.single a)) := by
  intro p
  constructor
  · intro a b x y hsp ha hb
    unfold parsePages
    rw [hsp]
    show (match pyInt a, pyInt b with
        | some x2, some y2 => some (PagesResult.range x2 y2)
        | _, _ => none) = some (PagesResult.range x y)
    rw [ha, hb]
  · intro a hsp
    unfold parsePages
    rw [hsp]

/-- Witness for C7: the spec's own examples. -/
theorem claimC7_witness :
    parsePages "12–20".data = some (PagesResult.range 12 20) ∧
    parsePages "45".data = some (PagesResult.single "45".data) := by
  constructor
  · exact (claimC7_pages_success "12–20".data).1 "12".data "20".data 12 20
      (by decide) (by decide) (by decide)
  · exact (claimC7_pages_success "45".data).2 "45".data (by decide)

/-- Claim C6: page-range parsing fails (the `assert False` / `ValueError`
the spec surfaces as `InvalidPagesFormatError`) whenever the en-dash split
has neither one nor two parts, or has two parts of which at least one is
not parseable as an integer. -/
theorem claimC6_pages_errors : ∀ p : List Char,
    ((splitSep '–' p).length ≠ 1 → (splitSep '–' p).length ≠ 2 →
      parsePages p = none) ∧
    (∀ a b : List Char, splitSep '–' p = [a, b] →
      pyInt a = none ∨ pyInt b = none → parsePages p = none) := by
  intro p
  constructor
  · intro h1 h2
    unfold parsePages
    cases hsp : splitSep '–' p with
    | nil => rfl
    | cons a rest =>
      cases rest with
      | nil =>
        rw [hsp] at h1
        simp at h1
      | cons b rest2 =>
        cases rest2 with
        | nil =>
          rw [hsp] at h2
          simp at h2
        | cons c rest3 => rfl
  · intro a b hsp hor
    unfold parsePages
    rw [hsp]
    show (match pyInt a, pyInt b with
        | some x2, some y2 => some (PagesResult.range x2 y2)
        | _, _ => none) = none
    rcases hor with h | h
    · rw [h]
    · rw [h]
      cases pyInt a <;> rfl

/-- Witness for C6: a three-part split and a non-numeric two-part split
both fail. -/
theorem claimC6_witness :
    parsePages "1–2–3".data = none ∧ parsePages "a–b".data = none := by
  constructor
  · exact (claimC6_pages_errors "1–2–3".data).1 (by decide) (by decide)
  · exact (claimC6_pages_errors "a–b".data).2 "a".data "b".data (by decide)
      (Or.inl (by decide))

/-- Claim C5: an author token containing a comma parses iff it has exactly
one comma, into `last_name` = trimmed text before the comma and
`first_name` = trimmed text after it (two or more commas fail); a
comma-free token parses iff it has exactly two whitespace-separated
pieces, into `first_name` = first piece and `last_name` = second piece
(any other piece count fails).  Failures model the source's
`assert`s, surfaced by the spec as `UnsupportedAuthorFormatError`. -/
theorem claimC5_author_token : ∀ t : List Char,
    (∀ pre post : List Char, ',' ∉ pre → ',' ∉ post →
      t = pre ++ ',' :: post →
      parseAuthorToken t =
        some ⟨pyStrip t, pyStrip post, pyStrip pre, none⟩) ∧
    (2 ≤ t.count ',' → parseAuthorToken t = none) ∧
    (',' ∉ t → ∀ p q : List Char, splitWs t = [p, q] →
      parseAuthorToken t = some ⟨pyStrip t, p, q, none⟩) ∧
    (',' ∉ t → (splitWs t).length ≠ 2 → parseAuthorToken t = none) := by
  intro t
  refine ⟨?_, ?_, ?_, ?_⟩
  · intro pre post hpre hpost ht
    have hmem : ',' ∈ t := by
      rw [ht]
      exact List.mem_append_right _ (List.mem_cons_self _ _)
    have hsp : splitSep ',' t = [pre, post] := by
      rw [ht]
      unfold splitSep
      rw [splitSepAux_sep ',' pre hpre post [],
        splitSepAux_no_sep ',' post hpost []]
      simp
    unfold parseAuthorToken
    rw [if_pos hmem, hsp]
  · intro hcount
    have hmem : ',' ∈ t :=
      List.count_pos_iff.mp (lt_of_lt_of_le (by norm_num) hcount)
    have hlen : (splitSep ',' t).length = t.count ',' + 1 :=
      splitSepAux_length ',' t []
    unfold parseAuthorToken
    rw [if_pos hmem]
    cases hsp : splitSep ',' t with
    | nil => rfl
    | cons a rest =>
      cases rest with
      | nil => rfl
      | cons b rest2 =>
        cases rest2 with
        | nil =>
          rw [hsp] at hlen
          simp at hlen
          omega
        | cons c rest3 => rfl
  · intro hnc p q hsp
    have hpm : p ∈ splitWs t := by
      rw [hsp]
      exact List.mem_cons_self _ _
    have hqm : q ∈ splitWs t := by
      rw [hsp]
      exact List.mem_cons_of_mem _ (List.mem_cons_self _ _)
    have hp : ∀ c ∈ p, isPySpace c = false :=
      splitWsAux_pieces_nonspace t [] (by simp) p hpm
    have hq : ∀ c ∈ q, isPySpace c = false :=
      splitWsAux_pieces_nonspace t [] (by simp) q hqm
    unfold parseAuthorToken
    rw [if_neg hnc, hsp]
    show some (⟨pyStrip t, pyStrip p, pyStrip q, none⟩ : Author) =
      some ⟨pyStrip t, p, q, none⟩
    rw [pyStrip_eq_self_of_nonspace p hp, pyStrip_eq_self_of_nonspace q hq]
  · intro hnc hlen
    unfold parseAuthorToken
    rw [if_neg hnc]
    cases hsp : splitWs t with
    | nil => rfl
    | cons a rest =>
      cases rest with
      | nil => rfl
      | cons b rest2 =>
        cases rest2 with
        | nil =>
          rw [hsp] at hlen
          simp at hlen
        | cons c rest3 => rfl

/-- Witness for C5 exercising all four branches: `Last, First`, a
two-comma token, `First Last`, and a three-piece token. -/
theorem claimC5_witness :
    parseAuthorToken "Doe, Jane".data =
      some ⟨"Doe, Jane".data, "Jane".data, "Doe".data, none⟩ ∧
    parseAuthorToken "A, B, C".data = none ∧
    parseAuthorToken "Jane Doe".data =
      some ⟨"Jane Doe".data, "Jane".data, "Doe".data, none⟩ ∧
    parseAuthorToken "Jane van Doe".data = none := by
  refine ⟨?_, ?_, ?_, ?_⟩
  · have h := (claimC5_author_token "Doe, Jane".data).1 "Doe".data
      " Jane".data (by decide) (by decide) (by decide)
    exact h.trans (by decide)
  · exact (claimC5_author_token "A, B, C".data).2.1 (by decide)
  · have h := (claimC5_author_token "Jane Doe".data).2.2.1 (by decide)
      "Jane".data "Doe".data (by decide)
    exact h.trans (by decide)
  · exact (claimC5_author_token "Jane van Doe".data).2.2.2 (by decide)
      (by decide)

theorem splitWsAux_space_cons (l cur : List Char) (h : ¬ cur = []) :
    splitWsAux (' ' :: l) cur = cur.reverse :: splitWsAux l [] := by
  simp [splitWsAux, isPySpace, h]

theorem dropWhile_append_of_ne_nil (l l2 : List Char) (hne : l ≠ [])
    (h : ∀ c ∈ l, isPySpace c = false) :
    (l ++ l2).dropWhile isPySpace = l ++ l2 := by
  cases l with
  | nil => exact absurd rfl hne
  | cons c rest =>
    exact dropWhile_cons_of_nonspace c _ (h c (List.mem_cons_self _ _))

/-- Claim C8 is false as stated: `str.split()` collapses whitespace runs,
so the token `"Jane  Doe"` (two inner spaces) parses successfully into
`Jane`/`Doe`, but rejoining `first_name ++ " " ++ last_name` gives
`"Jane Doe"`, which is not the trimmed original token. -/
theorem claimC8_counterexample :
    parseAuthorToken "Jane  Doe".data =
      some ⟨"Jane  Doe".data, "Jane".data, "Doe".data, none⟩ ∧
    "Jane".data ++ ' ' :: "Doe".data ≠ pyStrip "Jane  Doe".data := by
  decide

/-- Claim C8, amended: the round-trip holds for every comma-free token
whose two names are separated by exactly one space character (arbitrary
surrounding whitespace still allowed and trimmed): parsing yields the two
names, and rejoining them with a single space recovers the trimmed
original token. -/
theorem claimC8_roundtrip_single_space (ws1 ws2 a b : List Char)
    (hw1 : ∀ c ∈ ws1, isPySpace c = true)
    (hw2 : ∀ c ∈ ws2, isPySpace c = true)
    (ha : ∀ c ∈ a, isPySpace c = false ∧ c ≠ ',')
    (hb : ∀ c ∈ b, isPySpace c = false ∧ c ≠ ',')
    (hane : a ≠ []) (hbne : b ≠ []) :
    parseAuthorToken (ws1 ++ (a ++ (' ' :: (b ++ ws2)))) =
      some ⟨a ++ ' ' :: b, a, b, none⟩ ∧
    a ++ ' ' :: b = pyStrip (ws1 ++ (a ++ (' ' :: (b ++ ws2)))) := by
  have hnc : ',' ∉ ws1 ++ (a ++ (' ' :: (b ++ ws2))) := by
    intro hm
    rcases List.mem_append.mp hm with hw | hm2
    · have h5 := hw1 ',' hw
      simp [isPySpace] at h5
    · rcases List.mem_append.mp hm2 with hA | hm3
      · exact (ha ',' hA).2 rfl
      · rcases List.mem_cons.mp hm3 with he | hm4
        · simp at he
        · rcases List.mem_append.mp hm4 with hB | hw
          · exact (hb ',' hB).2 rfl
          · have h5 := hw2 ',' hw
            simp [isPySpace] at h5
  have hrava : ¬ a.reverse = [] := by simpa using hane
  have hravb : b.reverse ≠ [] := by simpa using hbne
  have hspl : splitWs (ws1 ++ (a ++ (' ' :: (b ++ ws2)))) = [a, b] := by
    unfold splitWs
    rw [splitWsAux_spaces_nil ws1 hw1,
      splitWsAux_nonspace a (fun c hc => (ha c hc).1)]
    simp only [List.append_nil]
    rw [splitWsAux_space_cons (b ++ ws2) a.reverse hrava,
      List.reverse_reverse,
      splitWsAux_nonspace b (fun c hc => (hb c hc).1)]
    simp only [List.append_nil]
    rw [splitWsAux_spaces_flush ws2 b.reverse hw2 hravb,
      List.reverse_reverse]
  have hstrip : pyStrip (ws1 ++ (a ++ (' ' :: (b ++ ws2)))) =
      a ++ ' ' :: b := by
    unfold pyStrip
    rw [dropWhile_spaces_append ws1 hw1,
      dropWhile_append_of_ne_nil a _ hane (fun c hc => (ha c hc).1)]
    have hrev1 : (a ++ (' ' :: (b ++ ws2))).reverse =
        ws2.reverse ++ (b.reverse ++ (' ' :: a.reverse)) := by
      simp
    rw [hrev1,
      dropWhile_spaces_append ws2.reverse
        (fun c hc => hw2 c (List.mem_reverse.mp hc)),
      dropWhile_append_of_ne_nil b.reverse _ hravb
        (fun c hc => (hb c (List.mem_reverse.mp hc)).1)]
    simp
  refine ⟨?_, hstrip.symm⟩
  unfold parseAuthorToken
  rw [if_neg hnc, hspl]
  show some (⟨pyStrip (ws1 ++ (a ++ (' ' :: (b ++ ws2)))),
      pyStrip a, pyStrip b, none⟩ : Author) = some ⟨a ++ ' ' :: b, a, b, none⟩
  rw [pyStrip_eq_self_of_nonspace a (fun c hc => (ha c hc).1),
    pyStrip_eq_self_of_nonspace b (fun c hc => (hb c hc).1), hstrip]

/-- Witness for C8 (amended): a token with leading whitespace and a single
inner space round-trips. -/
theorem claimC8_witness :
    parseAuthorToken ([' '] ++ ("Ada".data ++ (' ' :: ("Lovelace".data ++ [])))) =
      some ⟨"Ada".data ++ ' ' :: "Lovelace".data, "Ada".data,
        "Lovelace".data, none⟩ ∧
    "Ada".data ++ ' ' :: "Lovelace".data =
      pyStrip ([' '] ++ ("Ada".data ++ (' ' :: ("Lovelace".data ++ [])))) :=
  claimC8_roundtrip_single_space [' '] [] "Ada".data "Lovelace".data
    (by decide) (by decide) (by decide) (by decide) (by decide) (by decide)

/-- Claim C3 is false as stated: `export_as_cff` streams each line to
stdout as it is produced, so when the title is absent the `date-released`
line and the `doi` line have already been written before the failure —
the failure is not atomic and partial output exists. -/
theorem claimC3_counterexample :
    (exportAsCff ⟨2026, 10, 12⟩
      [("doi".data, Val.vstr "10.5281/zenodo.1".data)] "1.2.0".data).2 =
        false ∧
    (exportAsCff ⟨2026, 10, 12⟩
      [("doi".data, Val.vstr "10.5281/zenodo.1".data)] "1.2.0".data).1 =
        ["date-released: \"2026-01-01\"\n".data,
         "doi: \"10.5281/zenodo.1\"\n".data] := by
  decide

/-- Claim C3, amended: serialization of a model whose title is absent does
fail (the `KeyError` the spec surfaces as `MissingRequiredFieldError`), but
not atomically: by then the `date-released` line and any `doi` line have
already been emitted, so the failure leaves partial (non-empty) output for
the entry. -/
theorem claimC3_title_failure_partial_output (now : PyDate)
    (d d2 : InfoDict) (v : List Char)
    (hp : prepInfoForExport now d = some d2)
    (ht : getKey d2 "title".data = none) :
    exportAsCff now d v =
      (kvLine [] "date-released".data
        (pyStr (Val.vstr (constructedDate now d))) :: doiLines d2, false) ∧
    (exportAsCff now d v).1 ≠ [] := by
  have hdr := getKey_prep_dr now d d2 hp
  have hmain : exportAsCff now d v =
      (kvLine [] "date-released".data
        (pyStr (Val.vstr (constructedDate now d))) :: doiLines d2, false) := by
    unfold exportAsCff
    rw [hp]
    show (match getKey d2 "date-released".data with
      | none => ([], false)
      | some dv =>
        match getKey d2 "title".data with
        | none => (kvLine [] "date-released".data (pyStr dv) :: doiLines d2,
            false)
        | some tv =>
          match addAuthorNamesToCff d2 0 with
          | none =>
            ((kvLine [] "date-released".data (pyStr dv) :: doiLines d2) ++
              [kvLine [] "title".data (pyStr tv),
               kvLine [] "cff-version".data v] ++ repoVersionLines d2, false)
          | some al0 =>
            match addAuthorNamesToCff d2 2 with
            | none =>
              ((kvLine [] "date-released".data (pyStr dv) :: doiLines d2) ++
                [kvLine [] "title".data (pyStr tv),
                 kvLine [] "cff-version".data v] ++ repoVersionLines d2 ++
                al0 ++ "preferred-citation:\n".data :: typeLine d2 ::
                (publisherLines d2 ++ conferenceLines d2 ++
                  fixedKeyLines d2), false)
            | some al2 =>
              ((kvLine [] "date-released".data (pyStr dv) :: doiLines d2) ++
                [kvLine [] "title".data (pyStr tv),
                 kvLine [] "cff-version".data v] ++ repoVersionLines d2 ++
                al0 ++ "preferred-citation:\n".data :: typeLine d2 ::
                (publisherLines d2 ++ conferenceLines d2 ++
                  fixedKeyLines d2) ++ al2, true)) =
      (kvLine [] "date-released".data
        (pyStr (Val.vstr (constructedDate now d))) :: doiLines d2, false)
    rw [hdr, ht]
  refine ⟨hmain, ?_⟩
  rw [hmain]
  simp

/-- Witness for C3 (amended) at a concrete titleless dictionary. -/
theorem claimC3_witness :
    exportAsCff ⟨2026, 10, 12⟩
      [("doi".data, Val.vstr "10.5281/zenodo.1".data)] "1.2.0".data =
      (["date-released: \"2026-01-01\"\n".data,
        "doi: \"10.5281/zenodo.1\"\n".data], false) := by
  have h := (claimC3_title_failure_partial_output ⟨2026, 10, 12⟩
    [("doi".data, Val.vstr "10.5281/zenodo.1".data)]
    [("doi".data, Val.vstr "10.5281/zenodo.1".data),
     ("date-released".data, Val.vstr "2026-01-01".data)]
    "1.2.0".data (by decide) (by decide)).1
  exact h.trans (by decide)

/-- Claim C10: an entry whose field mapping has no `author` field can never
be converted to output: `parse_bibtex` then stores no `author_dict`, and
the author-list renderer's asserts require a present, non-empty author
sequence, so `export_as_cff` always ends in a failure. -/
theorem claimC10_no_author_never_exports (e : Entry) (d : InfoDict)
    (ha : lookupStr e.fields "author".data = none)
    (hp : parseBibtex e = some d) :
    ∀ now : PyDate, ∀ v : List Char, (exportAsCff now d v).2 = false := by
  intro now v
  have had : getKey d "author_dict".data = none :=
    parseBibtex_no_author e d ha hp
  unfold exportAsCff
  split
  · rfl
  · rename_i d2 hprep
    have had2 : getKey d2 "author_dict".data = none := by
      rw [getKey_prep_ne now d d2 _ hprep (by decide) (by decide) (by decide)
        (by decide), had]
    have hAA : addAuthorNamesToCff d2 0 = none := by
      unfold addAuthorNamesToCff
      rw [had2]
    split
    · rfl
    · split
      · rfl
      · split
        · rfl
        · rename_i al0 hal0
          rw [hAA] at hal0
          exact Option.noConfusion hal0

/-- Witness for C10: a title-bearing `article` entry without authors parses
but its export fails. -/
theorem claimC10_witness :
    (exportAsCff ⟨2026, 10, 12⟩
      [("ENTRYTYPE".data, Val.vstr "article".data),
       ("title".data, Val.vstr "A".data),
       ("author".data, Val.vnone)] "1.2.0".data).2 = false :=
  claimC10_no_author_never_exports
    ⟨"article".data, [("title".data, "A".data)]⟩
    [("ENTRYTYPE".data, Val.vstr "article".data),
     ("title".data, Val.vstr "A".data),
     ("author".data, Val.vnone)]
    (by decide) (by decide) ⟨2026, 10, 12⟩ "1.2.0".data

end BibToCff
